import Mathlib

/-!
Shallow embedding of `src/export_collections_as_glb_files.py`.

The script iterates over the top-level collections of the current Blender
scene and, for each one, deselects everything, filters out cameras and
lights, looks for a pivot object whose name contains `"_root"`, snapshots
the eligible objects' locations, translates them so the pivot lands at the
origin, selects exactly the eligible objects, calls the glTF exporter
(GLB, selected objects only), restores the snapshotted locations and
deselects everything again.

Object locations are modelled as integer 3-vectors (the script only copies,
subtracts and reassigns locations, so the claims do not depend on the
numeric carrier).  Mutable host state (each object's location and selection
flag) is modelled as functions from object identity (a `Nat` id) to the
field's value; `bpy.ops.export_scene.gltf` is modelled as an oracle
`exporter : String → Bool` telling for each file path whether the call
succeeds, and each invocation is recorded together with the selection and
location state at the moment of the call.  A Python exception from the
exporter propagates out of the script, which is modelled by the `raised`
flag: when it is set the top-level loop stops and later statements do not
run.
-/

/-- A 3D vector with integer components, standing for `mathutils.Vector`. -/
structure Vec3 where
  x : Int
  y : Int
  z : Int
deriving DecidableEq, Repr

/-- Componentwise subtraction, standing for `obj.location -= root_position`. -/
def Vec3.sub (a b : Vec3) : Vec3 :=
  ⟨a.x - b.x, a.y - b.y, a.z - b.z⟩

/-- The Blender object type tag (`obj.type`); the script only distinguishes
`'CAMERA'` and `'LIGHT'` from everything else. -/
inductive ObjType where
  | CAMERA
  | LIGHT
  | MESH
  | EMPTY
deriving DecidableEq, Repr

/-- The immutable data of a scene object: its identity, its name and its
type tag.  The mutable fields (location, selection flag) live in
`SceneState`, keyed by `id`. -/
structure Obj where
  id : Nat
  name : String
  ty : ObjType
deriving DecidableEq, Repr

/-- A Blender collection: a name and the objects directly contained in it. -/
structure Collection where
  name : String
  objects : List Obj
deriving DecidableEq, Repr

/-- The scene: objects linked directly to the scene root collection, and the
root collection's child collections (`bpy.context.scene.collection.children`). -/
structure Scene where
  rootObjects : List Obj
  children : List Collection

/-- The mutable host state: each object's location (`obj.location`) and
selection flag (`obj.select_get()`), keyed by object id. -/
structure SceneState where
  loc : Nat → Vec3
  sel : Nat → Bool

/-- `bpy.ops.object.select_all(action='DESELECT')`: every object in the
scene becomes deselected. -/
def deselectAll (s : SceneState) : SceneState :=
  { s with sel := fun _ => false }

/-- Write one object's location (`obj.location = v`). -/
def setLoc (s : SceneState) (i : Nat) (v : Vec3) : SceneState :=
  { s with loc := fun j => if j = i then v else s.loc j }

/-- Write one object's selection flag (`obj.select_set(b)`). -/
def setSel (s : SceneState) (i : Nat) (b : Bool) : SceneState :=
  { s with sel := fun j => if j = i then b else s.sel j }

/-- `p.data.isPrefixOf`-style check on character lists: does `s` start with
`pat`? -/
def listStartsWith : List Char → List Char → Bool
  | [], _ => true
  | _ :: _, [] => false
  | p :: ps, c :: cs => p == c && listStartsWith ps cs

/-- Does `s` contain `pat` as a contiguous sublist (anywhere)? -/
def listContainsSub (pat : List Char) : List Char → Bool
  | [] => listStartsWith pat []
  | c :: cs => listStartsWith pat (c :: cs) || listContainsSub pat cs

/-- Python's substring test `pat in s` on strings. -/
def strContains (s pat : String) : Bool :=
  listContainsSub pat.data s.data

/-- `s.startswith(pat)` on strings (defined over the character lists so that
it evaluates by kernel reduction). -/
def strStartsWith (s pat : String) : Bool :=
  listStartsWith pat.data s.data

/-- `s.endswith(pat)` on strings. -/
def strEndsWith (s pat : String) : Bool :=
  listStartsWith pat.data.reverse s.data.reverse

/-- Drop the first `n` characters of a string. -/
def strDrop (s : String) (n : Nat) : String :=
  String.mk (s.data.drop n)

/-- `find_root_object(objects)`: the first object in the list whose name
contains `"_root"` anywhere, or `none`. -/
def find_root_object : List Obj → Option Obj
  | [] => none
  | obj :: rest =>
    if strContains obj.name "_root" then some obj else find_root_object rest

/-- The list comprehension
`[obj for obj in collection.objects if obj.type != 'CAMERA' and obj.type != 'LIGHT']`. -/
def objects_in_collection (collection : Collection) : List Obj :=
  collection.objects.filter fun obj =>
    obj.ty ≠ ObjType.CAMERA && obj.ty ≠ ObjType.LIGHT

/-- The snapshot `original_positions = {obj: obj.location.copy() for obj in
objects_in_collection}`: `location.copy()` copies by value, so the snapshot
stores the locations as they are before any translation. -/
def original_positions (objs : List Obj) (s : SceneState) : List (Nat × Vec3) :=
  objs.map fun o => (o.id, s.loc o.id)

/-- The loop `for obj in objects_in_collection: obj.location -= root_position`.
`root_position` was copied by value beforehand, so it is constant across the
loop. -/
def translateAll (objs : List Obj) (ref : Vec3) (s : SceneState) : SceneState :=
  objs.foldl (fun st o => setLoc st o.id (Vec3.sub (st.loc o.id) ref)) s

/-- The loop `for obj in objects_in_collection: obj.select_set(True)`. -/
def selectObjs (objs : List Obj) (s : SceneState) : SceneState :=
  objs.foldl (fun st o => setSel st o.id true) s

/-- The loop `for obj, original_loc in original_positions.items():
obj.location = original_loc`. -/
def restoreAll (snap : List (Nat × Vec3)) (s : SceneState) : SceneState :=
  snap.foldl (fun st p => setLoc st p.1 p.2) s

/-- `bpy.path.abspath` on a `//`-relative path: the leading `//` is replaced
by the directory of the current document. -/
def bpy_path_abspath (blend_dir p : String) : String :=
  if strStartsWith p "//" then blend_dir ++ strDrop p 2 else p

/-- `export_directory = bpy.path.abspath("//glb_exports/")`: the fixed
output directory `glb_exports` next to the current document. -/
def export_directory (blend_dir : String) : String :=
  bpy_path_abspath blend_dir "//glb_exports/"

/-- `os.path.join(a, b)` for the shapes used here: an absolute `b` wins;
otherwise a separator is inserted unless `a` already ends with one. -/
def os_path_join (a b : String) : String :=
  if strStartsWith b "/" then b
  else if a = "" || strEndsWith a "/" then a ++ b
  else a ++ "/" ++ b

/-- One recorded invocation of `bpy.ops.export_scene.gltf`, with the keyword
arguments of the call and the selection and location state of every object
at the moment of the call. -/
structure ExportCall where
  filepath : String
  export_format : String
  use_selection : Bool
  selAtCall : Nat → Bool
  locAtCall : Nat → Vec3

/-- A placeholder `ExportCall`, used only as the default of `List.headD` /
`List.getD` when reading recorded calls. -/
def noCall : ExportCall :=
  { filepath := "", export_format := "", use_selection := false,
    selAtCall := fun _ => false, locAtCall := fun _ => ⟨0, 0, 0⟩ }

/-- The outcome of running `export_collection` (or the whole loop): the host
state afterwards, the exporter invocations made, the warnings printed, and
whether a Python exception is propagating (in which case the statements
after the raising call did not run). -/
structure RunResult where
  state : SceneState
  calls : List ExportCall
  warnings : List String
  raised : Bool

/-- `export_collection(collection)`, lines 51-92 of the script.  `exporter`
tells whether the glTF export call at a given file path succeeds; on failure
the exception propagates, so the restoration loop and the final deselect do
not run. -/
def export_collection (exporter : String → Bool) (export_dir : String)
    (collection : Collection) (s : SceneState) : RunResult :=
  let s1 := deselectAll s
  let objs := objects_in_collection collection
  if objs.isEmpty then
    { state := s1, calls := [], warnings := [], raised := false }
  else
    match find_root_object objs with
    | none =>
      { state := s1, calls := [],
        warnings := ["Warning: No '_root' object found in collection '"
          ++ collection.name ++ "'. Skipping export."],
        raised := false }
    | some root_object =>
      let original := original_positions objs s1
      let root_position := s1.loc root_object.id
      let s2 := translateAll objs root_position s1
      let s3 := selectObjs objs s2
      let filepath := os_path_join export_dir (collection.name ++ ".glb")
      let call : ExportCall :=
        { filepath := filepath, export_format := "GLB", use_selection := true,
          selAtCall := s3.sel, locAtCall := s3.loc }
      if exporter filepath then
        { state := deselectAll (restoreAll original s3), calls := [call],
          warnings := [], raised := false }
      else
        { state := s3, calls := [call], warnings := [], raised := true }

/-- The module-level loop `for collection in scene_collection.children:
export_collection(collection)`.  An exception propagating out of
`export_collection` aborts the loop: the remaining collections are not
processed. -/
def runCollections (exporter : String → Bool) (export_dir : String) :
    List Collection → SceneState → RunResult
  | [], s => { state := s, calls := [], warnings := [], raised := false }
  | c :: cs, s =>
    let r := export_collection exporter export_dir c s
    if r.raised then
      { state := r.state, calls := r.calls, warnings := r.warnings, raised := true }
    else
      let rest := runCollections exporter export_dir cs r.state
      { state := rest.state, calls := r.calls ++ rest.calls,
        warnings := r.warnings ++ rest.warnings, raised := rest.raised }

/-- The whole script on a scene: iterate over the children of the scene root
collection, with the fixed export directory resolved next to the current
document. -/
def run_script (exporter : String → Bool) (blend_dir : String) (scene : Scene)
    (s : SceneState) : RunResult :=
  runCollections exporter (export_directory blend_dir) scene.children s

/-! ### Basic state lemmas -/

theorem deselectAll_loc (s : SceneState) : (deselectAll s).loc = s.loc := rfl

theorem deselectAll_sel (s : SceneState) (i : Nat) : (deselectAll s).sel i = false := rfl

theorem setLoc_loc (s : SceneState) (i : Nat) (v : Vec3) (j : Nat) :
    (setLoc s i v).loc j = if j = i then v else s.loc j := rfl

theorem setLoc_sel (s : SceneState) (i : Nat) (v : Vec3) : (setLoc s i v).sel = s.sel := rfl

theorem setSel_loc (s : SceneState) (i : Nat) (b : Bool) : (setSel s i b).loc = s.loc := rfl

/-! ### Lemmas about the loops (folds) of `export_collection` -/

theorem translateAll_sel (objs : List Obj) (ref : Vec3) (s : SceneState) :
    (translateAll objs ref s).sel = s.sel := by
  induction objs generalizing s with
  | nil => rfl
  | cons o rest ih => exact ih _

theorem selectObjs_loc (objs : List Obj) (s : SceneState) :
    (selectObjs objs s).loc = s.loc := by
  induction objs generalizing s with
  | nil => rfl
  | cons o rest ih => exact ih _

theorem restoreAll_sel (snap : List (Nat × Vec3)) (s : SceneState) :
    (restoreAll snap s).sel = s.sel := by
  induction snap generalizing s with
  | nil => rfl
  | cons p rest ih => exact ih _

theorem translateAll_loc_not_mem (objs : List Obj) (ref : Vec3) (s : SceneState)
    (i : Nat) (h : i ∉ objs.map Obj.id) :
    (translateAll objs ref s).loc i = s.loc i := by
  induction objs generalizing s with
  | nil => rfl
  | cons o rest ih =>
    simp only [List.map_cons, List.mem_cons, not_or] at h
    show (translateAll rest ref (setLoc s o.id (Vec3.sub (s.loc o.id) ref))).loc i = s.loc i
    rw [ih _ h.2, setLoc_loc, if_neg h.1]

theorem translateAll_loc_mem (objs : List Obj) (ref : Vec3) (s : SceneState)
    (o : Obj) (hnd : (objs.map Obj.id).Nodup) (ho : o ∈ objs) :
    (translateAll objs ref s).loc o.id = Vec3.sub (s.loc o.id) ref := by
  induction objs generalizing s with
  | nil => cases ho
  | cons a rest ih =>
    simp only [List.map_cons, List.nodup_cons] at hnd
    show (translateAll rest ref (setLoc s a.id (Vec3.sub (s.loc a.id) ref))).loc o.id = _
    rcases List.mem_cons.mp ho with rfl | ho
    · rw [translateAll_loc_not_mem _ _ _ _ hnd.1, setLoc_loc, if_pos rfl]
    · have hne : o.id ≠ a.id := fun he => hnd.1 (he ▸ List.mem_map_of_mem Obj.id ho)
      rw [ih _ hnd.2 ho, setLoc_loc, if_neg hne]

theorem selectObjs_sel (objs : List Obj) (s : SceneState) (i : Nat) :
    (selectObjs objs s).sel i = (s.sel i || objs.any fun o => o.id == i) := by
  induction objs generalizing s with
  | nil => simp [selectObjs]
  | cons o rest ih =>
    show (selectObjs rest (setSel s o.id true)).sel i = _
    rw [ih]
    by_cases h : i = o.id
    · subst h
      simp [setSel]
    · have h2 : (o.id == i) = false := beq_eq_false_iff_ne.mpr fun he => h he.symm
      simp [setSel, h, h2, Bool.or_assoc]

theorem restoreAll_map_loc (objs : List Obj) (f : Nat → Vec3) (s : SceneState) (i : Nat) :
    (restoreAll (objs.map fun o => (o.id, f o.id)) s).loc i =
      if i ∈ objs.map Obj.id then f i else s.loc i := by
  induction objs generalizing s with
  | nil => rfl
  | cons a rest ih =>
    show (restoreAll (rest.map fun o => (o.id, f o.id)) (setLoc s a.id (f a.id))).loc i = _
    rw [ih]
    by_cases hr : i ∈ rest.map Obj.id
    · rw [if_pos hr, if_pos (by simp [hr])]
    · rw [if_neg hr, setLoc_loc]
      by_cases ha : i = a.id
      · rw [if_pos ha, if_pos (by simp [ha]), ha]
      · rw [if_neg ha, if_neg (by simp [ha, hr])]

theorem find_root_object_mem (objs : List Obj) (r : Obj)
    (h : find_root_object objs = some r) : r ∈ objs := by
  induction objs with
  | nil => cases h
  | cons o rest ih =>
    by_cases hc : strContains o.name "_root" = true
    · rw [find_root_object, if_pos hc] at h
      exact (Option.some_inj.mp h) ▸ List.mem_cons_self o rest
    · rw [find_root_object, if_neg hc] at h
      exact List.mem_cons_of_mem o (ih h)

theorem find_root_object_isEmpty_false (objs : List Obj) (r : Obj)
    (h : find_root_object objs = some r) : objs.isEmpty = false := by
  cases objs with
  | nil => cases h
  | cons o rest => rfl

theorem any_id_eq_true_iff (objs : List Obj) (i : Nat) :
    (objs.any fun o => o.id == i) = true ↔ ∃ o ∈ objs, o.id = i := by
  simp [List.any_eq_true]

/-! ### Path characterizations of `export_collection` -/

/-- The selection/translation state at the moment of the exporter call for a
collection with pivot `r`, starting from host state `s`. -/
def stateAtCall (c : Collection) (r : Obj) (s : SceneState) : SceneState :=
  selectObjs (objects_in_collection c)
    (translateAll (objects_in_collection c) (s.loc r.id) (deselectAll s))

/-- The warning printed when a collection has no `"_root"` object. -/
def missingPivotWarning (c : Collection) : String :=
  "Warning: No '_root' object found in collection '" ++ c.name ++ "'. Skipping export."

theorem export_collection_empty (e : String → Bool) (d : String) (c : Collection)
    (s : SceneState) (h : objects_in_collection c = []) :
    export_collection e d c s =
      { state := deselectAll s, calls := [], warnings := [], raised := false } := by
  simp [export_collection, h]

theorem export_collection_missing (e : String → Bool) (d : String) (c : Collection)
    (s : SceneState) (hne : (objects_in_collection c).isEmpty = false)
    (h : find_root_object (objects_in_collection c) = none) :
    export_collection e d c s =
      { state := deselectAll s, calls := [],
        warnings := [missingPivotWarning c], raised := false } := by
  simp [export_collection, hne, h, missingPivotWarning]

/-- The `ExportCall` recorded when collection `c` with pivot `r` is exported
from host state `s` (shorthand used by the lemmas below). -/
def exportCallFor (d : String) (c : Collection) (r : Obj) (s : SceneState) : ExportCall :=
  { filepath := os_path_join d (c.name ++ ".glb"), export_format := "GLB",
    use_selection := true, selAtCall := (stateAtCall c r s).sel,
    locAtCall := (stateAtCall c r s).loc }

theorem export_collection_found (e : String → Bool) (d : String) (c : Collection)
    (s : SceneState) (r : Obj)
    (hr : find_root_object (objects_in_collection c) = some r) :
    export_collection e d c s =
      if e (os_path_join d (c.name ++ ".glb")) then
        { state := deselectAll (restoreAll
            (original_positions (objects_in_collection c) (deselectAll s))
            (stateAtCall c r s)),
          calls := [exportCallFor d c r s], warnings := [], raised := false }
      else
        { state := stateAtCall c r s,
          calls := [exportCallFor d c r s], warnings := [], raised := true } := by
  have hne := find_root_object_isEmpty_false _ _ hr
  simp only [export_collection, hne, hr, Bool.false_eq_true, if_false, stateAtCall,
    exportCallFor]
  rfl

theorem stateAtCall_sel (c : Collection) (r : Obj) (s : SceneState) (i : Nat) :
    (stateAtCall c r s).sel i = ((objects_in_collection c).any fun o => o.id == i) := by
  rw [stateAtCall, selectObjs_sel, translateAll_sel, deselectAll_sel, Bool.false_or]

theorem stateAtCall_loc_mem (c : Collection) (r : Obj) (s : SceneState) (o : Obj)
    (hnd : ((objects_in_collection c).map Obj.id).Nodup)
    (ho : o ∈ objects_in_collection c) :
    (stateAtCall c r s).loc o.id = Vec3.sub (s.loc o.id) (s.loc r.id) := by
  rw [stateAtCall, selectObjs_loc, translateAll_loc_mem _ _ _ _ hnd ho, deselectAll_loc]

theorem stateAtCall_loc_not_mem (c : Collection) (r : Obj) (s : SceneState) (i : Nat)
    (h : i ∉ (objects_in_collection c).map Obj.id) :
    (stateAtCall c r s).loc i = s.loc i := by
  rw [stateAtCall, selectObjs_loc, translateAll_loc_not_mem _ _ _ _ h, deselectAll_loc]

theorem original_positions_deselect (objs : List Obj) (s : SceneState) :
    original_positions objs (deselectAll s) = objs.map fun o => (o.id, s.loc o.id) := rfl

theorem restore_original_loc (c : Collection) (s s3 : SceneState) (i : Nat)
    (h3 : ∀ j, j ∉ (objects_in_collection c).map Obj.id → s3.loc j = s.loc j) :
    (restoreAll (original_positions (objects_in_collection c) (deselectAll s)) s3).loc i
      = s.loc i := by
  rw [original_positions_deselect, restoreAll_map_loc]
  by_cases h : i ∈ (objects_in_collection c).map Obj.id
  · rw [if_pos h]
  · rw [if_neg h, h3 i h]

/-- Whatever path `export_collection` takes, an object none of whose ids occur
among the collection's eligible objects keeps its location — even when the
exporter raises. -/
theorem export_collection_loc_not_mem (e : String → Bool) (d : String) (c : Collection)
    (s : SceneState) (i : Nat) (h : i ∉ (objects_in_collection c).map Obj.id) :
    (export_collection e d c s).state.loc i = s.loc i := by
  rcases he : objects_in_collection c with _ | ⟨o, rest⟩
  · rw [export_collection_empty e d c s he, deselectAll_loc]
  · rcases hr : find_root_object (objects_in_collection c) with _ | r
    · rw [export_collection_missing e d c s (by rw [he]; rfl) hr, deselectAll_loc]
    · rw [export_collection_found e d c s r hr]
      by_cases hfp : e (os_path_join d (c.name ++ ".glb")) = true
      · rw [if_pos hfp]
        show (deselectAll _).loc i = s.loc i
        rw [deselectAll_loc]
        exact restore_original_loc c s _ i fun j hj => stateAtCall_loc_not_mem c r s j hj
      · rw [if_neg hfp]
        exact stateAtCall_loc_not_mem c r s i h

/-- When the exporter call for the collection succeeds, `export_collection`
leaves every object's location exactly as it was. -/
theorem export_collection_loc_of_success (e : String → Bool) (d : String)
    (c : Collection) (s : SceneState)
    (hfp : e (os_path_join d (c.name ++ ".glb")) = true) (i : Nat) :
    (export_collection e d c s).state.loc i = s.loc i := by
  rcases he : objects_in_collection c with _ | ⟨o, rest⟩
  · rw [export_collection_empty e d c s he, deselectAll_loc]
  · rcases hr : find_root_object (objects_in_collection c) with _ | r
    · rw [export_collection_missing e d c s (by rw [he]; rfl) hr, deselectAll_loc]
    · rw [export_collection_found e d c s r hr, if_pos hfp]
      show (deselectAll _).loc i = s.loc i
      rw [deselectAll_loc]
      exact restore_original_loc c s _ i fun j hj => stateAtCall_loc_not_mem c r s j hj

theorem export_collection_not_raised_of_success (e : String → Bool) (d : String)
    (c : Collection) (s : SceneState)
    (hfp : e (os_path_join d (c.name ++ ".glb")) = true) :
    (export_collection e d c s).raised = false := by
  rcases he : objects_in_collection c with _ | ⟨o, rest⟩
  · rw [export_collection_empty e d c s he]
  · rcases hr : find_root_object (objects_in_collection c) with _ | r
    · rw [export_collection_missing e d c s (by rw [he]; rfl) hr]
    · rw [export_collection_found e d c s r hr, if_pos hfp]

/-- Every call recorded by `export_collection` is the one for that
collection's pivot path. -/
theorem export_collection_calls_from (e : String → Bool) (d : String) (c : Collection)
    (s : SceneState) (call : ExportCall)
    (hc : call ∈ (export_collection e d c s).calls) :
    ∃ r, find_root_object (objects_in_collection c) = some r ∧
      call = exportCallFor d c r s := by
  rcases he : objects_in_collection c with _ | ⟨o, rest⟩
  · rw [export_collection_empty e d c s he] at hc
    cases hc
  · rcases hr : find_root_object (objects_in_collection c) with _ | r
    · rw [export_collection_missing e d c s (by rw [he]; rfl) hr] at hc
      cases hc
    · rw [export_collection_found e d c s r hr] at hc
      refine ⟨r, he ▸ hr, ?_⟩
      by_cases hfp : e (os_path_join d (c.name ++ ".glb")) = true
      · rw [if_pos hfp] at hc
        exact List.mem_singleton.mp hc
      · rw [if_neg hfp] at hc
        exact List.mem_singleton.mp hc

/-! ### Lemmas about the top-level loop -/

theorem runCollections_loc_of_success (e : String → Bool) (d : String)
    (cols : List Collection) (s : SceneState) (he : ∀ p, e p = true) (i : Nat) :
    (runCollections e d cols s).state.loc i = s.loc i := by
  induction cols generalizing s with
  | nil => rfl
  | cons c cs ih =>
    show (if (export_collection e d c s).raised then _ else _ : RunResult).state.loc i = _
    rw [export_collection_not_raised_of_success e d c s (he _), if_neg (by simp)]
    show (runCollections e d cs (export_collection e d c s).state).state.loc i = _
    rw [ih, export_collection_loc_of_success e d c s (he _)]

theorem runCollections_not_raised_of_success (e : String → Bool) (d : String)
    (cols : List Collection) (s : SceneState) (he : ∀ p, e p = true) :
    (runCollections e d cols s).raised = false := by
  induction cols generalizing s with
  | nil => rfl
  | cons c cs ih =>
    show (if (export_collection e d c s).raised then _ else _ : RunResult).raised = _
    rw [export_collection_not_raised_of_success e d c s (he _), if_neg (by simp)]
    exact ih _

theorem runCollections_loc_not_mem (e : String → Bool) (d : String)
    (cols : List Collection) (s : SceneState) (i : Nat)
    (h : ∀ c ∈ cols, i ∉ (objects_in_collection c).map Obj.id) :
    (runCollections e d cols s).state.loc i = s.loc i := by
  induction cols generalizing s with
  | nil => rfl
  | cons c cs ih =>
    have hc := export_collection_loc_not_mem e d c s i (h c (List.mem_cons_self c cs))
    show (if (export_collection e d c s).raised then _ else _ : RunResult).state.loc i = _
    by_cases hz : (export_collection e d c s).raised = true
    · rw [if_pos hz]
      exact hc
    · rw [if_neg hz]
      show (runCollections e d cs (export_collection e d c s).state).state.loc i = _
      rw [ih _ fun c' hc' => h c' (List.mem_cons_of_mem c hc'), hc]

theorem runCollections_calls_from (e : String → Bool) (d : String)
    (cols : List Collection) (s : SceneState) (call : ExportCall)
    (hc : call ∈ (runCollections e d cols s).calls) :
    ∃ c ∈ cols, ∃ s' r, find_root_object (objects_in_collection c) = some r ∧
      call = exportCallFor d c r s' := by
  induction cols generalizing s with
  | nil => cases hc
  | cons c cs ih =>
    by_cases hz : (export_collection e d c s).raised = true
    · rw [show (runCollections e d (c :: cs) s).calls
          = (export_collection e d c s).calls by
        show (if (export_collection e d c s).raised then _ else _ : RunResult).calls = _
        rw [if_pos hz]] at hc
      obtain ⟨r, hr, hcall⟩ := export_collection_calls_from e d c s call hc
      exact ⟨c, List.mem_cons_self c cs, s, r, hr, hcall⟩
    · rw [show (runCollections e d (c :: cs) s).calls
          = (export_collection e d c s).calls
            ++ (runCollections e d cs (export_collection e d c s).state).calls by
        show (if (export_collection e d c s).raised then _ else _ : RunResult).calls = _
        rw [if_neg hz]] at hc
      rcases List.mem_append.mp hc with hc1 | hc2
      · obtain ⟨r, hr, hcall⟩ := export_collection_calls_from e d c s call hc1
        exact ⟨c, List.mem_cons_self c cs, s, r, hr, hcall⟩
      · obtain ⟨c', hcm, s', r, hr, hcall⟩ := ih _ hc2
        exact ⟨c', List.mem_cons_of_mem c hcm, s', r, hr, hcall⟩

/-! ### Further helper lemmas -/

theorem headD_mem_of_length_pos {α : Type} (l : List α) (d : α) (h : 0 < l.length) :
    l.headD d ∈ l := by
  cases l with
  | nil => cases h
  | cons a t => exact List.mem_cons_self a t

theorem any_id_false_of_not_mem (objs : List Obj) (i : Nat)
    (h : i ∉ objs.map Obj.id) : (objs.any fun o => o.id == i) = false := by
  cases hany : objs.any fun o => o.id == i
  · rfl
  · obtain ⟨o, hom, hoid⟩ := (any_id_eq_true_iff objs i).mp hany
    exact absurd (hoid ▸ List.mem_map_of_mem Obj.id hom) h

theorem not_mem_elig_of_camlight (c : Collection) (i : Nat)
    (h : ∀ o ∈ c.objects, o.id = i → o.ty = ObjType.CAMERA ∨ o.ty = ObjType.LIGHT) :
    i ∉ (objects_in_collection c).map Obj.id := by
  intro him
  obtain ⟨o, hom, hoid⟩ := List.mem_map.mp him
  obtain ⟨hobj, hpred⟩ := List.mem_filter.mp hom
  rcases h o hobj hoid with hcam | hlight
  · simp [hcam] at hpred
  · simp [hlight] at hpred

theorem not_mem_elig_of_not_any (c : Collection) (i : Nat)
    (h : ∀ o ∈ c.objects, o.id ≠ i) :
    i ∉ (objects_in_collection c).map Obj.id := by
  intro him
  obtain ⟨o, hom, hoid⟩ := List.mem_map.mp him
  exact h o (List.mem_filter.mp hom).1 hoid

theorem export_directory_eq (blend_dir : String) :
    export_directory blend_dir = blend_dir ++ "glb_exports/" := by
  have h1 : strStartsWith "//glb_exports/" "//" = true := by decide
  have h2 : strDrop "//glb_exports/" 2 = "glb_exports/" := by decide
  rw [export_directory, bpy_path_abspath, if_pos h1, h2]

theorem strEndsWith_export_directory (blend_dir : String) :
    strEndsWith (export_directory blend_dir) "/" = true := by
  rw [export_directory_eq, strEndsWith, String.data_append]
  have h : ("glb_exports/".data).reverse = '/' :: ("glb_exports".data).reverse := by decide
  rw [List.reverse_append, h]
  rfl

theorem os_path_join_dir_slash (a b : String) (ha : strEndsWith a "/" = true)
    (hb : strStartsWith b "/" = false) : os_path_join a b = a ++ b := by
  rw [os_path_join, if_neg (by rw [hb]; exact Bool.false_ne_true), if_pos]
  rw [ha, Bool.or_true]

/-- At every exporter call of a run, an object whose id occurs in no
collection's eligible list is recorded unselected and at its original
location. -/
theorem runCollections_calls_not_mem (e : String → Bool) (d : String)
    (cols : List Collection) (s : SceneState) (i : Nat)
    (h : ∀ c ∈ cols, i ∉ (objects_in_collection c).map Obj.id) :
    ∀ call ∈ (runCollections e d cols s).calls,
      call.selAtCall i = false ∧ call.locAtCall i = s.loc i := by
  induction cols generalizing s with
  | nil => intro call hc; cases hc
  | cons c cs ih =>
    intro call hc
    have hme : i ∉ (objects_in_collection c).map Obj.id := h c (List.mem_cons_self c cs)
    have hsingle : ∀ call' ∈ (export_collection e d c s).calls,
        call'.selAtCall i = false ∧ call'.locAtCall i = s.loc i := by
      intro call' hc'
      obtain ⟨r, _, rfl⟩ := export_collection_calls_from e d c s call' hc'
      exact ⟨(stateAtCall_sel c r s i).trans (any_id_false_of_not_mem _ i hme),
        stateAtCall_loc_not_mem c r s i hme⟩
    by_cases hz : (export_collection e d c s).raised = true
    · rw [show (runCollections e d (c :: cs) s).calls = (export_collection e d c s).calls by
        show (if (export_collection e d c s).raised then _ else _ : RunResult).calls = _
        rw [if_pos hz]] at hc
      exact hsingle call hc
    · rw [show (runCollections e d (c :: cs) s).calls
          = (export_collection e d c s).calls
            ++ (runCollections e d cs (export_collection e d c s).state).calls by
        show (if (export_collection e d c s).raised then _ else _ : RunResult).calls = _
        rw [if_neg hz]] at hc
      rcases List.mem_append.mp hc with hc1 | hc2
      · exact hsingle call hc1
      · have hrec := ih (export_collection e d c s).state
          (fun c' hc' => h c' (List.mem_cons_of_mem c hc')) call hc2
        exact ⟨hrec.1, hrec.2.trans (export_collection_loc_not_mem e d c s i hme)⟩

/-! ### Concrete fixtures for witnesses and counterexamples -/

/-- Mesh object `A` (id 0). -/
def objA : Obj := ⟨0, "A", ObjType.MESH⟩

/-- Mesh object `B_root` (id 1), the pivot of `colA`. -/
def objB : Obj := ⟨1, "B_root", ObjType.MESH⟩

/-- Mesh object `C` (id 2). -/
def objC : Obj := ⟨2, "C", ObjType.MESH⟩

/-- Camera object (id 3). -/
def objCam : Obj := ⟨3, "Cam", ObjType.CAMERA⟩

/-- Light object (id 4). -/
def objLight : Obj := ⟨4, "Lamp", ObjType.LIGHT⟩

/-- Mesh object `D_root` (id 5), the pivot of `colB`. -/
def objD : Obj := ⟨5, "D_root", ObjType.MESH⟩

/-- Mesh object `NP` (id 6), in the pivotless collection. -/
def objNP : Obj := ⟨6, "NP", ObjType.MESH⟩

/-- Mesh object `Free` (id 7), linked directly to the scene root collection. -/
def objFree : Obj := ⟨7, "Free", ObjType.MESH⟩

/-- Mesh object (id 9) with `"_root"` in the middle of its name. -/
def objMid : Obj := ⟨9, "Piv_rootX", ObjType.MESH⟩

/-- A collection with three meshes (one of them the `B_root` pivot) and a camera. -/
def colA : Collection := ⟨"ColA", [objA, objB, objC, objCam]⟩

/-- A collection whose objects have no `"_root"` in their names. -/
def colNP : Collection := ⟨"NoPivot", [objNP]⟩

/-- A second collection with a pivot, processed after the others. -/
def colB : Collection := ⟨"ColB", [objD]⟩

/-- A collection containing only a camera and a light. -/
def colEmpty : Collection := ⟨"Empties", [objCam, objLight]⟩

/-- A collection whose pivot has `"_root"` mid-name, preceded by a non-match. -/
def colMid : Collection := ⟨"Mid", [objA, objMid, objC]⟩

/-- The example scene: `Free` sits at the scene root; the children are
`ColA`, `NoPivot`, `ColB`. -/
def scene0 : Scene := ⟨[objFree], [colA, colNP, colB]⟩

/-- The initial host state: the positions of the spec's example (§8), the
camera at (7,7,7) and initially selected. -/
def state0 : SceneState :=
  { loc := fun i =>
      if i = 0 then ⟨1, 1, 1⟩
      else if i = 1 then ⟨5, 5, 5⟩
      else if i = 2 then ⟨2, 2, 2⟩
      else if i = 3 then ⟨7, 7, 7⟩
      else if i = 5 then ⟨9, 9, 9⟩
      else if i = 6 then ⟨3, 3, 3⟩
      else if i = 7 then ⟨4, 4, 4⟩
      else ⟨0, 0, 0⟩,
    sel := fun i => i == 3 }

theorem export_collection_calls_found (e : String → Bool) (d : String)
    (c : Collection) (s : SceneState) (r : Obj)
    (hr : find_root_object (objects_in_collection c) = some r) :
    (export_collection e d c s).calls = [exportCallFor d c r s] := by
  rw [export_collection_found e d c s r hr]
  by_cases hfp : e (os_path_join d (c.name ++ ".glb")) = true
  · rw [if_pos hfp]
  · rw [if_neg hfp]

/-! ### The claims -/

/-- C5: a collection whose eligible-object list is empty is skipped without
effect: no exporter call, no warning, no propagating exception, and every
object's location is left untouched. -/
theorem empty_collection_skipped (e : String → Bool) (d : String) (c : Collection)
    (s : SceneState) (h : objects_in_collection c = []) :
    (export_collection e d c s).calls = [] ∧
    (export_collection e d c s).warnings = [] ∧
    (export_collection e d c s).raised = false ∧
    ∀ i, (export_collection e d c s).state.loc i = s.loc i := by
  rw [export_collection_empty e d c s h]
  exact ⟨rfl, rfl, rfl, fun i => rfl⟩

/-- C5 witness: the collection holding only a camera and a light is a no-op. -/
theorem empty_collection_skipped_witness :
    objects_in_collection colEmpty = [] ∧
    (export_collection (fun _ => true) "/proj/glb_exports/" colEmpty state0).calls = [] ∧
    (export_collection (fun _ => true) "/proj/glb_exports/" colEmpty state0).warnings = [] ∧
    (export_collection (fun _ => true) "/proj/glb_exports/" colEmpty state0).raised = false ∧
    (export_collection (fun _ => true) "/proj/glb_exports/" colEmpty state0).state.loc 3
      = state0.loc 3 := by
  have h := empty_collection_skipped (fun _ => true) "/proj/glb_exports/" colEmpty state0 rfl
  exact ⟨rfl, h.1, h.2.1, h.2.2.1, h.2.2.2 3⟩

/-- C2: a non-empty collection with no `"_root"` object produces no exporter
call, prints exactly the missing-pivot warning, raises nothing, mutates no
location, and the loop goes on to process the remaining collections. -/
theorem missing_pivot_warns_and_skips (e : String → Bool) (d : String)
    (c : Collection) (s : SceneState) (cs : List Collection)
    (hne : (objects_in_collection c).isEmpty = false)
    (hnone : find_root_object (objects_in_collection c) = none) :
    (export_collection e d c s).calls = [] ∧
    (export_collection e d c s).warnings = [missingPivotWarning c] ∧
    (export_collection e d c s).raised = false ∧
    (∀ i, (export_collection e d c s).state.loc i = s.loc i) ∧
    (runCollections e d (c :: cs) s).calls
      = (runCollections e d cs (export_collection e d c s).state).calls := by
  have hm := export_collection_missing e d c s hne hnone
  refine ⟨by rw [hm], by rw [hm], by rw [hm], fun i => by rw [hm]; rfl, ?_⟩
  show (if (export_collection e d c s).raised then _ else _ : RunResult).calls = _
  rw [hm]
  simp

/-- C2 witness: the `NoPivot` collection warns and skips; the next collection
is still processed from its resulting state. -/
theorem missing_pivot_warns_and_skips_witness :
    (export_collection (fun _ => true) "/proj/glb_exports/" colNP state0).calls = [] ∧
    (export_collection (fun _ => true) "/proj/glb_exports/" colNP state0).warnings
      = [missingPivotWarning colNP] ∧
    (export_collection (fun _ => true) "/proj/glb_exports/" colNP state0).raised = false ∧
    (export_collection (fun _ => true) "/proj/glb_exports/" colNP state0).state.loc 6
      = state0.loc 6 ∧
    (runCollections (fun _ => true) "/proj/glb_exports/" [colNP, colB] state0).calls
      = (runCollections (fun _ => true) "/proj/glb_exports/" [colB]
          (export_collection (fun _ => true) "/proj/glb_exports/" colNP state0).state).calls := by
  have h := missing_pivot_warns_and_skips (fun _ => true) "/proj/glb_exports/" colNP state0
    [colB] rfl rfl
  exact ⟨h.1, h.2.1, h.2.2.1, h.2.2.2.1 6, h.2.2.2.2⟩

theorem find_root_first_aux (l1 l2 : List Obj) (o : Obj)
    (h1 : ∀ o' ∈ l1, strContains o'.name "_root" = false)
    (ho : strContains o.name "_root" = true) :
    find_root_object (l1 ++ o :: l2) = some o := by
  induction l1 with
  | nil => rw [List.nil_append, find_root_object, if_pos ho]
  | cons a t ih =>
    rw [List.cons_append, find_root_object,
      if_neg (by rw [h1 a (List.mem_cons_self a t)]; exact Bool.false_ne_true)]
    exact ih fun o' ho' => h1 o' (List.mem_cons_of_mem a ho')

/-- C3: when the eligible list is `l1 ++ o :: l2` with no `"_root"` match in
`l1` and `o` matching (anywhere in the name, not only as a suffix), pivot
resolution returns `o`, the first match in native order — and the recorded
exporter call shows every eligible object translated relative to `o`'s
position, i.e. `o`'s position is the reference point. -/
theorem find_root_object_first_match (l1 l2 : List Obj) (o : Obj)
    (h1 : ∀ o' ∈ l1, strContains o'.name "_root" = false)
    (ho : strContains o.name "_root" = true) :
    find_root_object (l1 ++ o :: l2) = some o ∧
    ∀ (e : String → Bool) (d : String) (c : Collection) (s : SceneState)
      (call : ExportCall), objects_in_collection c = l1 ++ o :: l2 →
      ((objects_in_collection c).map Obj.id).Nodup →
      call ∈ (export_collection e d c s).calls →
      ∀ o' ∈ objects_in_collection c,
        call.locAtCall o'.id = Vec3.sub (s.loc o'.id) (s.loc o.id) := by
  have hfirst := find_root_first_aux l1 l2 o h1 ho
  refine ⟨hfirst, ?_⟩
  intro e d c s call heq hnd hc o' ho'
  obtain ⟨r, hr, rfl⟩ := export_collection_calls_from e d c s call hc
  have hro : r = o := by
    rw [heq, hfirst] at hr
    exact (Option.some_inj.mp hr).symm
  subst hro
  exact stateAtCall_loc_mem c r s o' hnd ho'

/-- C3 witness: in `[A, Piv_rootX, C]` the first (and here only) name containing
the marker mid-name is found, and the reference used for the translation is its
position. -/
theorem find_root_object_first_match_witness :
    find_root_object [objA, objMid, objC] = some objMid ∧
    strContains objMid.name "_root" = true ∧
    ((export_collection (fun _ => true) "/p/" colMid state0).calls.headD noCall).locAtCall 0
      = Vec3.sub (state0.loc 0) (state0.loc 9) := by
  have h := find_root_object_first_match [objA] [objC] objMid (by decide) (by decide)
  refine ⟨h.1, by decide, ?_⟩
  have hlen : (export_collection (fun _ => true) "/p/" colMid state0).calls.length = 1 := rfl
  exact h.2 (fun _ => true) "/p/" colMid state0 _ rfl (by decide)
    (headD_mem_of_length_pos _ noCall (by rw [hlen]; decide)) objA (by decide)

/-- C4: with a pivot `r` resolved and pairwise-distinct object identities,
the single recorded exporter call shows each eligible object `o` at its
original position minus the pivot's original position. -/
theorem translation_subtracts_pivot_position (e : String → Bool) (d : String)
    (c : Collection) (s : SceneState) (r o : Obj)
    (hnd : ((objects_in_collection c).map Obj.id).Nodup)
    (hr : find_root_object (objects_in_collection c) = some r)
    (ho : o ∈ objects_in_collection c) :
    (export_collection e d c s).calls.length = 1 ∧
    ((export_collection e d c s).calls.headD noCall).locAtCall o.id
      = Vec3.sub (s.loc o.id) (s.loc r.id) := by
  rw [export_collection_calls_found e d c s r hr]
  exact ⟨rfl, stateAtCall_loc_mem c r s o hnd ho⟩

/-- C4 witness: the spec's concrete example — `A` at (1,1,1), `B_root` at
(5,5,5), `C` at (2,2,2): reference (5,5,5); post-translation positions
(-4,-4,-4), (0,0,0), (-3,-3,-3). -/
theorem translation_subtracts_pivot_position_witness :
    find_root_object (objects_in_collection colA) = some objB ∧
    state0.loc objB.id = ⟨5, 5, 5⟩ ∧
    ((export_collection (fun _ => true) "/p/" colA state0).calls.headD noCall).locAtCall 0
      = ⟨-4, -4, -4⟩ ∧
    ((export_collection (fun _ => true) "/p/" colA state0).calls.headD noCall).locAtCall 1
      = ⟨0, 0, 0⟩ ∧
    ((export_collection (fun _ => true) "/p/" colA state0).calls.headD noCall).locAtCall 2
      = ⟨-3, -3, -3⟩ := by
  have hA := translation_subtracts_pivot_position (fun _ => true) "/p/" colA state0 objB objA
    (by decide) rfl (by decide)
  have hB := translation_subtracts_pivot_position (fun _ => true) "/p/" colA state0 objB objB
    (by decide) rfl (by decide)
  have hC := translation_subtracts_pivot_position (fun _ => true) "/p/" colA state0 objB objC
    (by decide) rfl (by decide)
  exact ⟨rfl, rfl, hA.2.trans (by decide), hB.2.trans (by decide), hC.2.trans (by decide)⟩

/-- C7: whatever the incoming selection state (in particular whatever a
previously processed collection left behind), at the moment the exporter is
invoked for a collection exactly its eligible objects are selected and no
other object in the scene is. -/
theorem exactly_eligible_selected_at_export (e : String → Bool) (d : String)
    (c : Collection) (s : SceneState) (r : Obj)
    (hr : find_root_object (objects_in_collection c) = some r) :
    (export_collection e d c s).calls.length = 1 ∧
    ∀ i, (((export_collection e d c s).calls.headD noCall).selAtCall i = true
      ↔ ∃ o ∈ objects_in_collection c, o.id = i) := by
  rw [export_collection_calls_found e d c s r hr]
  refine ⟨rfl, fun i => ?_⟩
  show (stateAtCall c r s).sel i = true ↔ _
  rw [stateAtCall_sel]
  exact any_id_eq_true_iff _ i

/-- C7 witness: for `ColA` starting from a state where the camera (id 3) is
already selected, the call records meshes 0 and 2 selected and ids 3 and 7
unselected. -/
theorem exactly_eligible_selected_at_export_witness :
    (export_collection (fun _ => true) "/p/" colA state0).calls.length = 1 ∧
    ((export_collection (fun _ => true) "/p/" colA state0).calls.headD noCall).selAtCall 0
      = true ∧
    ((export_collection (fun _ => true) "/p/" colA state0).calls.headD noCall).selAtCall 2
      = true ∧
    ((export_collection (fun _ => true) "/p/" colA state0).calls.headD noCall).selAtCall 3
      = false ∧
    ((export_collection (fun _ => true) "/p/" colA state0).calls.headD noCall).selAtCall 7
      = false := by
  have h := exactly_eligible_selected_at_export (fun _ => true) "/p/" colA state0 objB rfl
  refine ⟨h.1, (h.2 0).mpr ⟨objA, by decide, rfl⟩, (h.2 2).mpr ⟨objC, by decide, rfl⟩, ?_, ?_⟩
  · cases hb : ((export_collection (fun _ => true) "/p/" colA state0).calls.headD
        noCall).selAtCall 3 with
    | false => rfl
    | true =>
      obtain ⟨o, hom, hoid⟩ := (h.2 3).mp hb
      have hom' : o ∈ [objA, objB, objC] := hom
      simp only [List.mem_cons, List.not_mem_nil, or_false] at hom'
      rcases hom' with rfl | rfl | rfl <;> exact absurd hoid (by decide)
  · cases hb : ((export_collection (fun _ => true) "/p/" colA state0).calls.headD
        noCall).selAtCall 7 with
    | false => rfl
    | true =>
      obtain ⟨o, hom, hoid⟩ := (h.2 7).mp hb
      have hom' : o ∈ [objA, objB, objC] := hom
      simp only [List.mem_cons, List.not_mem_nil, or_false] at hom'
      rcases hom' with rfl | rfl | rfl <;> exact absurd hoid (by decide)

/-- C8: for a collection with a resolved pivot, the exporter is invoked
exactly once, with output path the fixed directory (`glb_exports` next to the
current document) joined with the collection's name plus `".glb"`, format
`GLB`, and selection-only scope. -/
theorem exporter_invoked_once_with_glb_args (e : String → Bool) (blend_dir : String)
    (c : Collection) (s : SceneState) (r : Obj)
    (hr : find_root_object (objects_in_collection c) = some r)
    (hname : strStartsWith (c.name ++ ".glb") "/" = false) :
    (export_collection e (export_directory blend_dir) c s).calls.length = 1 ∧
    ((export_collection e (export_directory blend_dir) c s).calls.headD noCall).filepath
      = blend_dir ++ "glb_exports/" ++ (c.name ++ ".glb") ∧
    ((export_collection e (export_directory blend_dir) c s).calls.headD
      noCall).export_format = "GLB" ∧
    ((export_collection e (export_directory blend_dir) c s).calls.headD
      noCall).use_selection = true := by
  rw [export_collection_calls_found e (export_directory blend_dir) c s r hr]
  refine ⟨rfl, ?_, rfl, rfl⟩
  show os_path_join (export_directory blend_dir) (c.name ++ ".glb") = _
  rw [os_path_join_dir_slash _ _ (strEndsWith_export_directory blend_dir) hname,
    export_directory_eq]

/-- C8 witness: `ColA` with the document in `/proj/` is exported once to
`/proj/glb_exports/ColA.glb` as GLB, selected objects only. -/
theorem exporter_invoked_once_with_glb_args_witness :
    (export_collection (fun _ => true) (export_directory "/proj/") colA state0).calls.length
      = 1 ∧
    ((export_collection (fun _ => true) (export_directory "/proj/") colA
      state0).calls.headD noCall).filepath = "/proj/glb_exports/ColA.glb" ∧
    ((export_collection (fun _ => true) (export_directory "/proj/") colA
      state0).calls.headD noCall).export_format = "GLB" ∧
    ((export_collection (fun _ => true) (export_directory "/proj/") colA
      state0).calls.headD noCall).use_selection = true := by
  have h := exporter_invoked_once_with_glb_args (fun _ => true) "/proj/" colA state0 objB
    rfl (by decide)
  exact ⟨h.1, h.2.1.trans (by decide), h.2.2.1, h.2.2.2⟩

/-- C9: positions are copied by value, so every eligible object — the pivot
included, wherever it sits in iteration order — is translated by the pivot's
pre-translation position (the pivot lands exactly at the origin), and on a
successful export the translate-then-restore sequence is the identity on
every object's position. -/
theorem translate_restore_identity (e : String → Bool) (d : String) (c : Collection)
    (s : SceneState) (r : Obj)
    (hnd : ((objects_in_collection c).map Obj.id).Nodup)
    (hr : find_root_object (objects_in_collection c) = some r)
    (hfp : e (os_path_join d (c.name ++ ".glb")) = true) :
    (∀ o ∈ objects_in_collection c,
      ((export_collection e d c s).calls.headD noCall).locAtCall o.id
        = Vec3.sub (s.loc o.id) (s.loc r.id)) ∧
    ((export_collection e d c s).calls.headD noCall).locAtCall r.id = ⟨0, 0, 0⟩ ∧
    ∀ i, (export_collection e d c s).state.loc i = s.loc i := by
  have hcalls := export_collection_calls_found e d c s r hr
  refine ⟨fun o ho => ?_, ?_, export_collection_loc_of_success e d c s hfp⟩
  · rw [hcalls]
    exact stateAtCall_loc_mem c r s o hnd ho
  · rw [hcalls]
    show (stateAtCall c r s).loc r.id = _
    rw [stateAtCall_loc_mem c r s r hnd (find_root_object_mem _ _ hr)]
    show Vec3.sub (s.loc r.id) (s.loc r.id) = ⟨0, 0, 0⟩
    simp [Vec3.sub]

/-- C9 witness: on `ColA` with a succeeding exporter, `A` is translated by the
pivot's original position, `B_root` sits at the origin at export time, and
afterwards both are back at their original positions. -/
theorem translate_restore_identity_witness :
    ((export_collection (fun _ => true) "/p/" colA state0).calls.headD noCall).locAtCall 0
      = Vec3.sub (state0.loc 0) (state0.loc 1) ∧
    ((export_collection (fun _ => true) "/p/" colA state0).calls.headD noCall).locAtCall 1
      = ⟨0, 0, 0⟩ ∧
    (export_collection (fun _ => true) "/p/" colA state0).state.loc 0 = state0.loc 0 ∧
    (export_collection (fun _ => true) "/p/" colA state0).state.loc 1 = state0.loc 1 := by
  have h := translate_restore_identity (fun _ => true) "/p/" colA state0 objB
    (by decide) rfl rfl
  exact ⟨h.1 objA (by decide), h.2.1, h.2.2 0, h.2.2 1⟩

/-- C1 counterexample: the script has no try/except around the exporter call,
so with a failing exporter `B_root` (originally at (5,5,5)) is left at the
origin — its position is NOT restored — and the run does NOT continue: the
later collection `ColB`, which has a pivot of its own, is never exported
(only one exporter call happens) and the exception propagates. -/
theorem export_failure_leaves_positions_unrestored :
    state0.loc 1 = ⟨5, 5, 5⟩ ∧
    (run_script (fun _ => false) "/proj/" scene0 state0).state.loc 1 = ⟨0, 0, 0⟩ ∧
    (run_script (fun _ => false) "/proj/" scene0 state0).raised = true ∧
    (run_script (fun _ => false) "/proj/" scene0 state0).calls.length = 1 := by
  exact ⟨by decide, by decide, rfl, rfl⟩

/-- C1 (amended): when every exporter call succeeds, the whole run leaves
every object's position bit-identical to its pre-run value and no exception
propagates; when an exporter call raises, the collection's positions are not
restored and the run aborts without processing the remaining collections. -/
theorem positions_restored_when_exporter_succeeds (e : String → Bool)
    (blend_dir : String) (scene : Scene) (s : SceneState)
    (he : ∀ p, e p = true) (i : Nat) :
    (run_script e blend_dir scene s).state.loc i = s.loc i ∧
    (run_script e blend_dir scene s).raised = false :=
  ⟨runCollections_loc_of_success e _ scene.children s he i,
   runCollections_not_raised_of_success e _ scene.children s he⟩

/-- C1 witness: with a succeeding exporter the example run restores the pivot
object's position and finishes normally. -/
theorem positions_restored_when_exporter_succeeds_witness :
    (run_script (fun _ => true) "/proj/" scene0 state0).state.loc 1 = state0.loc 1 ∧
    (run_script (fun _ => true) "/proj/" scene0 state0).raised = false :=
  positions_restored_when_exporter_succeeds (fun _ => true) "/proj/" scene0 state0
    (fun _ => rfl) 1

/-- C6 counterexample: the camera starts selected, and the run's
`select_all(action='DESELECT')` deselects it — its selection state is NOT
unchanged by the run. -/
theorem camera_selection_state_changed :
    objCam.ty = ObjType.CAMERA ∧
    state0.sel 3 = true ∧
    (run_script (fun _ => true) "/proj/" scene0 state0).state.sel 3 = false :=
  ⟨rfl, rfl, rfl⟩

/-- C6 (amended): an object all of whose occurrences in the processed
collections are cameras or lights is never eligible: its position is
unchanged by the run, every recorded exporter call shows it unselected and
at its original position, and it is never the resolved pivot.  (Its
selection flag, however, may change: the script's deselect-all clears it.) -/
theorem camera_and_light_untouched (e : String → Bool) (d : String)
    (cols : List Collection) (s : SceneState) (i : Nat)
    (h : ∀ c ∈ cols, ∀ o ∈ c.objects, o.id = i →
      o.ty = ObjType.CAMERA ∨ o.ty = ObjType.LIGHT) :
    (runCollections e d cols s).state.loc i = s.loc i ∧
    (∀ call ∈ (runCollections e d cols s).calls,
      call.selAtCall i = false ∧ call.locAtCall i = s.loc i) ∧
    ∀ c ∈ cols, ∀ r, find_root_object (objects_in_collection c) = some r → r.id ≠ i := by
  have hnm : ∀ c ∈ cols, i ∉ (objects_in_collection c).map Obj.id :=
    fun c hc => not_mem_elig_of_camlight c i (h c hc)
  refine ⟨runCollections_loc_not_mem e d cols s i hnm,
    runCollections_calls_not_mem e d cols s i hnm, ?_⟩
  intro c hc r hr he
  exact hnm c hc (he ▸ List.mem_map_of_mem Obj.id (find_root_object_mem _ _ hr))

/-- C6 witness: the camera (id 3) keeps its position across the example run,
is unselected at the recorded exporter call, and is not the pivot of `ColA`. -/
theorem camera_and_light_untouched_witness :
    (runCollections (fun _ => true) "/proj/glb_exports/" scene0.children
      state0).state.loc 3 = state0.loc 3 ∧
    ((runCollections (fun _ => true) "/proj/glb_exports/" scene0.children
      state0).calls.headD noCall).selAtCall 3 = false ∧
    objB.id ≠ 3 := by
  have h := camera_and_light_untouched (fun _ => true) "/proj/glb_exports/"
    scene0.children state0 3 (by decide)
  have hlen : (runCollections (fun _ => true) "/proj/glb_exports/" scene0.children
      state0).calls.length = 2 := rfl
  refine ⟨h.1, ?_, h.2.2 colA (by decide) objB rfl⟩
  exact (h.2.1 _ (headD_mem_of_length_pos _ noCall (by rw [hlen]; decide))).1

/-- C10: only the children of the scene root collection are processed: an
object whose id occurs in no child collection (e.g. one linked directly to
the scene root) keeps its position, is recorded unselected and unmoved at
every exporter call, and every output path produced is named after some
child collection — none for the scene root itself. -/
theorem only_child_collections_processed (e : String → Bool) (blend_dir : String)
    (scene : Scene) (s : SceneState) (i : Nat)
    (h : ∀ c ∈ scene.children, ∀ o ∈ c.objects, o.id ≠ i) :
    (run_script e blend_dir scene s).state.loc i = s.loc i ∧
    (∀ call ∈ (run_script e blend_dir scene s).calls,
      call.selAtCall i = false ∧ call.locAtCall i = s.loc i) ∧
    ∀ call ∈ (run_script e blend_dir scene s).calls, ∃ c ∈ scene.children,
      call.filepath = os_path_join (export_directory blend_dir) (c.name ++ ".glb") := by
  have hnm : ∀ c ∈ scene.children, i ∉ (objects_in_collection c).map Obj.id :=
    fun c hc => not_mem_elig_of_not_any c i (h c hc)
  refine ⟨runCollections_loc_not_mem _ _ _ _ i hnm,
    runCollections_calls_not_mem _ _ _ _ i hnm, ?_⟩
  intro call hc
  obtain ⟨c, hcm, s', r, hr, rfl⟩ := runCollections_calls_from _ _ _ _ call hc
  exact ⟨c, hcm, rfl⟩

/-- C10 witness: the object `Free` (id 7), linked only to the scene root,
keeps its position across the run and is unselected at the first recorded
exporter call. -/
theorem only_child_collections_processed_witness :
    (run_script (fun _ => true) "/proj/" scene0 state0).state.loc 7 = state0.loc 7 ∧
    ((run_script (fun _ => true) "/proj/" scene0 state0).calls.headD
      noCall).selAtCall 7 = false := by
  have h := only_child_collections_processed (fun _ => true) "/proj/" scene0 state0 7
    (by decide)
  have hlen : (run_script (fun _ => true) "/proj/" scene0 state0).calls.length = 2 := rfl
  exact ⟨h.1, (h.2.1 _ (headD_mem_of_length_pos _ noCall (by rw [hlen]; decide))).1⟩
